import Mathlib

set_option maxRecDepth 8000

/-!
# Verification of the DHCP protocol engine of `testDHCP.py`

A shallow embedding of the protocol core of `src/testDHCP.py` (DHCP Options
Scanner v3.0): the DHCP message encoder/decoder (`DHCPPacket.pack`,
`DHCPPacket.unpack`, `DHCPPacket._parse_options`), the raw-frame
demultiplexing and XID filtering performed inside `DHCPListener.receive`,
the option interpretation loop of `scan_dhcp_options`, and the mapping of
terminal exchange outcomes to the value `scan_dhcp_options` returns.

Conventions of the embedding:
* a Python `bytes` object is a `List Nat` (every element is < 256 in real
  executions; theorems carry that bound as a hypothesis where it matters);
* Python functions that can raise an exception are embedded as
  `Option`-returning functions, `none` standing for the raised exception;
* multi-byte fields are big-endian (`struct` format `!`), encoded and
  decoded by `beBytes` / `beVal`;
* the four IPv4 address fields, kept by the Python class as dotted-quad
  strings, are modelled by their 32-bit numeric value (the value
  `socket.inet_aton` produces); `inet_ntoa ∘ inet_aton` is the identity on
  the canonical dotted-quad strings the class itself produces, so the
  numeric value is a faithful representation of the string field;
* `random.randint` results that feed a computation (the `xid or
  random.randint(...)` default in `DHCPPacket.__init__`) are passed in as
  an explicit `randXid` argument.
-/

namespace DHCP

/-- Python `s.ljust(n, b'\x00')`: pad on the right with zero bytes up to
length `n`; a longer list is returned unchanged. -/
def ljust (n : Nat) (l : List Nat) : List Nat :=
  l ++ List.replicate (n - l.length) 0

/-- Model of a `struct` fixed-length string field (`16s`, `64s`, `128s`): pad with
zero bytes to length `n` and truncate to length `n` (silently, in both
directions). -/
def fixstr (n : Nat) (l : List Nat) : List Nat :=
  (ljust n l).take n

/-- Python `b.rstrip(b'\x00')`: drop trailing zero bytes. -/
def rstrip0 (l : List Nat) : List Nat :=
  (l.reverse.dropWhile (fun b => b = 0)).reverse

/-- Big-endian encoding of `v` on `n` bytes (`struct` formats `!B`, `!H`,
`!L` with `n` = 1, 2, 4; faithful when `v < 256 ^ n`, which the callers
check before use, mirroring the `struct.error` raised otherwise). -/
def beBytes : Nat → Nat → List Nat
  | 0, _ => []
  | n + 1, v => beBytes n (v / 256) ++ [v % 256]

/-- Big-endian value of a byte list (`struct.unpack` of `!B`/`!H`/`!L`). -/
def beVal (l : List Nat) : Nat :=
  l.foldl (fun a b => a * 256 + b) 0

@[simp] theorem beBytes_length (n v : Nat) : (beBytes n v).length = n := by
  induction n generalizing v with
  | zero => rfl
  | succ n ih => simp [beBytes, ih]

theorem beVal_append (l₁ l₂ : List Nat) :
    beVal (l₁ ++ l₂) = l₂.foldl (fun a b => a * 256 + b) (beVal l₁) := by
  simp [beVal, List.foldl_append]

theorem beVal_beBytes (n v : Nat) (h : v < 256 ^ n) :
    beVal (beBytes n v) = v := by
  induction n generalizing v with
  | zero =>
    simp [beBytes, beVal]
    omega
  | succ n ih =>
    have hp : (256 : Nat) ^ (n + 1) = 256 ^ n * 256 := pow_succ 256 n
    have hdiv : v / 256 < 256 ^ n := by omega
    show beVal (beBytes n (v / 256) ++ [v % 256]) = v
    rw [beVal_append]
    simp only [List.foldl_cons, List.foldl_nil]
    rw [ih (v / 256) hdiv]
    omega

@[simp] theorem ljust_length (n : Nat) (l : List Nat) :
    (ljust n l).length = max n l.length := by
  simp [ljust]
  omega

@[simp] theorem fixstr_length (n : Nat) (l : List Nat) :
    (fixstr n l).length = n := by
  simp [fixstr]

theorem fixstr_eq (n : Nat) (l : List Nat) (h : l.length = n) :
    fixstr n l = l := by
  simp [fixstr, ljust, h]

theorem rstrip0_ljust (n : Nat) (l : List Nat) (h : l.length = n) :
    ljust n (rstrip0 l) = l := by
  have hsplit := List.takeWhile_append_dropWhile (fun b => decide (b = 0))
    l.reverse
  have hrepl : l.reverse.takeWhile (fun b => decide (b = 0)) =
      List.replicate (l.reverse.takeWhile (fun b => decide (b = 0))).length
        0 := by
    apply List.eq_replicate_of_mem
    intro b hb
    have := List.mem_takeWhile_imp hb
    simpa using this
  have hlensum :
      (l.reverse.takeWhile (fun b => decide (b = 0))).length +
        (l.reverse.dropWhile (fun b => decide (b = 0))).length = n := by
    have h2 : (l.reverse.takeWhile (fun b => decide (b = 0))).length +
        (l.reverse.dropWhile (fun b => decide (b = 0))).length =
        l.reverse.length := by
      rw [← List.length_append, hsplit]
    rw [List.length_reverse] at h2
    omega
  unfold ljust rstrip0
  rw [List.length_reverse]
  have hn : n - (l.reverse.dropWhile (fun b => decide (b = 0))).length =
      (l.reverse.takeWhile (fun b => decide (b = 0))).length := by omega
  rw [hn]
  conv_rhs => rw [← List.reverse_reverse l, ← hsplit, List.reverse_append]
  congr 1
  conv_rhs => rw [hrepl]
  simp

theorem take_append_len {α : Type} (l₁ l₂ : List α) (n : Nat)
    (h : l₁.length = n) : (l₁ ++ l₂).take n = l₁ := by
  subst h
  simp

theorem drop_append_len {α : Type} (l₁ l₂ : List α) (n : Nat)
    (h : l₁.length = n) : (l₁ ++ l₂).drop n = l₂ := by
  subst h
  simp

/-- The constant `DHCP_MAGIC_COOKIE = b'\x63\x82\x53\x63'` (`testDHCP.py:20`). -/
def magicCookie : List Nat := [0x63, 0x82, 0x53, 0x63]

/-- The state of a `DHCPPacket` object (`testDHCP.py:47-69`).  The four
address fields, dotted-quad strings in the Python class, are modelled by
the 32-bit value `socket.inet_aton` gives them; `chaddr`, `sname` and
`file` are the stored byte strings (already padded by `__init__`). -/
structure DHCPPacket where
  op : Nat
  htype : Nat
  hlen : Nat
  hops : Nat
  xid : Nat
  secs : Nat
  flags : Nat
  ciaddr : Nat
  yiaddr : Nat
  siaddr : Nat
  giaddr : Nat
  chaddr : List Nat
  sname : List Nat
  file : List Nat
  options : List (Nat × List Nat)
  deriving Repr, DecidableEq

/-- Model of `DHCPPacket.__init__` (`testDHCP.py:50-69`): `xid = xid or
random.randint(0, 0xFFFFFFFF)` (a zero `xid` argument is replaced by the
random draw, passed here explicitly as `randXid`); `chaddr = chaddr or
b'\x00' * 16` (an empty `chaddr` argument is replaced by sixteen zero
bytes); `sname`/`file` are right-padded with zero bytes to 64/128 bytes. -/
def mkPacket (randXid op htype hlen hops xid secs flags
    ciaddr yiaddr siaddr giaddr : Nat)
    (chaddr sname file : List Nat)
    (options : List (Nat × List Nat)) : DHCPPacket :=
  { op := op, htype := htype, hlen := hlen, hops := hops,
    xid := if xid = 0 then randXid else xid,
    secs := secs, flags := flags,
    ciaddr := ciaddr, yiaddr := yiaddr, siaddr := siaddr, giaddr := giaddr,
    chaddr := if chaddr = [] then List.replicate 16 0 else chaddr,
    sname := ljust 64 sname,
    file := ljust 128 file,
    options := options }

/-- The option-encoding loop of `DHCPPacket.pack` (`testDHCP.py:93-100`):
code 0 or 255 emits the single code byte (any data is silently ignored);
any other code emits `[code][len(data)][data...]`.  `bytes([opt_code,
opt_len])` raises `ValueError` when the code or the data length exceeds
255, modelled by `none`. -/
def packOptionsLoop : List (Nat × List Nat) → Option (List Nat)
  | [] => some []
  | (c, d) :: rest =>
    if c = 0 then
      (packOptionsLoop rest).map (fun bs => 0 :: bs)
    else if c = 255 then
      (packOptionsLoop rest).map (fun bs => 255 :: bs)
    else if c < 256 ∧ d.length < 256 then
      (packOptionsLoop rest).map (fun bs => c :: d.length :: (d ++ bs))
    else none

/-- The option section `DHCPPacket.pack` emits (`testDHCP.py:93-103`): the
per-option loop, then a bare `0xff` terminator appended when no option of
code 255 is present in the input list. -/
def packOptions (opts : List (Nat × List Nat)) : Option (List Nat) :=
  (packOptionsLoop opts).map
    (fun bs => if opts.any (fun o => o.1 = 255) then bs else bs ++ [255])

/-- The 236-byte fixed section written by `struct.pack` with format
`!BBBBLHHLLLL16s64s128s` (`testDHCP.py:73-89`). -/
def fixedBytes (p : DHCPPacket) : List Nat :=
  beBytes 1 p.op ++ beBytes 1 p.htype ++ beBytes 1 p.hlen ++
  beBytes 1 p.hops ++ beBytes 4 p.xid ++ beBytes 2 p.secs ++
  beBytes 2 p.flags ++ beBytes 4 p.ciaddr ++ beBytes 4 p.yiaddr ++
  beBytes 4 p.siaddr ++ beBytes 4 p.giaddr ++ fixstr 16 p.chaddr ++
  fixstr 64 p.sname ++ fixstr 128 p.file

/-- Guard modelling that `struct.pack` raises `struct.error` when a `B`/`H`/`L` field is out of
range, and `socket.inet_aton` fails on a string that does not denote an
IPv4 address (modelled: an address value `≥ 2^32` corresponds to no
dotted-quad string). -/
def headerOk (p : DHCPPacket) : Prop :=
  p.op < 256 ∧ p.htype < 256 ∧ p.hlen < 256 ∧ p.hops < 256 ∧
  p.xid < 2 ^ 32 ∧ p.secs < 2 ^ 16 ∧ p.flags < 2 ^ 16 ∧
  p.ciaddr < 2 ^ 32 ∧ p.yiaddr < 2 ^ 32 ∧ p.siaddr < 2 ^ 32 ∧
  p.giaddr < 2 ^ 32

instance (p : DHCPPacket) : Decidable (headerOk p) := by
  unfold headerOk
  infer_instance

/-- Model of `DHCPPacket.pack` (`testDHCP.py:71-105`): fixed section, magic cookie,
encoded options; `none` models a raised exception. -/
def DHCPPacket.pack (p : DHCPPacket) : Option (List Nat) :=
  if headerOk p then
    (packOptions p.options).map
      (fun ob => fixedBytes p ++ magicCookie ++ ob)
  else none

/-- The body of the `DHCPPacket._parse_options` loop, made structurally
recursive on a fuel bound: every iteration of the Python `while` loop
consumes at least one byte, so any fuel of at least `data.length` steps
computes the loop's result (see `parseOptionsGo_congr`). -/
def parseOptionsGo : Nat → List Nat → List (Nat × List Nat)
  | 0, _ => []
  | _ + 1, [] => []
  | fuel + 1, c :: rest =>
    if c = 0 then parseOptionsGo fuel rest
    else if c = 255 then []
    else
      match rest with
      | [] => []
      | l :: rest2 => (c, rest2.take l) :: parseOptionsGo fuel (rest2.drop l)

/-- Model of `DHCPPacket._parse_options` (`testDHCP.py:134-157`): code 0 is
skipped; code 255 ends the scan; otherwise the next byte is the length
`L` and the following `L` bytes (fewer if the buffer ends first — Python
slices clip) are the data; a code byte with no length byte after it ends
the scan. -/
def parseOptions (data : List Nat) : List (Nat × List Nat) :=
  parseOptionsGo data.length data

theorem parseOptionsGo_nil (f : Nat) : parseOptionsGo f [] = [] := by
  cases f <;> rfl

theorem parseOptionsGo_cons_nil (f c : Nat) :
    parseOptionsGo (f + 1) [c] =
      if c = 0 then [] else if c = 255 then [] else [] := by
  show (if c = 0 then parseOptionsGo f [] else _) = _
  rw [parseOptionsGo_nil]

theorem parseOptionsGo_cons_cons (f c l : Nat) (rest2 : List Nat) :
    parseOptionsGo (f + 1) (c :: l :: rest2) =
      if c = 0 then parseOptionsGo f (l :: rest2)
      else if c = 255 then []
      else (c, rest2.take l) :: parseOptionsGo f (rest2.drop l) := rfl

/-- The fuel is irrelevant as soon as it covers the buffer length. -/
theorem parseOptionsGo_congr :
    ∀ (f₁ f₂ : Nat) (data : List Nat), data.length ≤ f₁ →
      data.length ≤ f₂ → parseOptionsGo f₁ data = parseOptionsGo f₂ data := by
  intro f₁
  induction f₁ with
  | zero =>
    intro f₂ data h₁ h₂
    have : data = [] := List.eq_nil_of_length_eq_zero (by omega)
    subst this
    rw [parseOptionsGo_nil, parseOptionsGo_nil]
  | succ f ih =>
    intro f₂ data h₁ h₂
    cases data with
    | nil => rw [parseOptionsGo_nil, parseOptionsGo_nil]
    | cons c rest =>
      cases f₂ with
      | zero => simp at h₂
      | succ f₂ =>
        cases rest with
        | nil => rw [parseOptionsGo_cons_nil, parseOptionsGo_cons_nil]
        | cons l rest2 =>
          rw [parseOptionsGo_cons_cons, parseOptionsGo_cons_cons]
          simp only [List.length_cons] at h₁ h₂
          have hd : (rest2.drop l).length ≤ rest2.length :=
            (List.drop_sublist l rest2).length_le
          by_cases hc : c = 0
          · rw [if_pos hc, if_pos hc]
            exact ih f₂ (l :: rest2) (by simp; omega) (by simp; omega)
          · rw [if_neg hc, if_neg hc]
            by_cases hc2 : c = 255
            · rw [if_pos hc2, if_pos hc2]
            · rw [if_neg hc2, if_neg hc2]
              rw [ih f₂ (rest2.drop l) (by omega) (by omega)]

theorem parseOptions_nil : parseOptions [] = [] := rfl

/-- The one-step unfolding of `_parse_options` on a nonempty buffer. -/
theorem parseOptions_cons (c : Nat) (rest : List Nat) :
    parseOptions (c :: rest) =
      if c = 0 then parseOptions rest
      else if c = 255 then []
      else
        match rest with
        | [] => []
        | l :: rest2 => (c, rest2.take l) :: parseOptions (rest2.drop l) := by
  cases rest with
  | nil =>
    show parseOptionsGo (0 + 1) [c] = _
    rw [parseOptionsGo_cons_nil]
    by_cases hc : c = 0 <;> by_cases hc2 : c = 255 <;>
      simp [hc, hc2, parseOptions_nil]
  | cons l rest2 =>
    show parseOptionsGo (rest2.length + 1 + 1) (c :: l :: rest2) = _
    rw [parseOptionsGo_cons_cons]
    by_cases hc : c = 0
    · rw [if_pos hc, if_pos hc]
      rfl
    · rw [if_neg hc, if_neg hc]
      by_cases hc2 : c = 255
      · rw [if_pos hc2, if_pos hc2]
      · rw [if_neg hc2, if_neg hc2]
        simp only
        have hd : (rest2.drop l).length ≤ rest2.length :=
          (List.drop_sublist l rest2).length_le
        rw [parseOptionsGo_congr (rest2.length + 1) (rest2.drop l).length
          (rest2.drop l) (by omega) (by omega)]
        rfl

/-- Model of `DHCPPacket.unpack` (`testDHCP.py:107-132`): `struct.unpack` of the
first 236 bytes (raising `struct.error`, i.e. `none`, when fewer are
available), fields fed through `__init__` (`mkPacket`), `sname`/`file`
stripped of trailing zero bytes, and the options parsed from offset 240
on (`data[240:]`, the empty list when the input is shorter).  The magic
cookie bytes at offsets 236-239 are never inspected. -/
def unpack (randXid : Nat) (data : List Nat) : Option DHCPPacket :=
  if data.length < 236 then none
  else
    let r1 := data.drop 1
    let r2 := r1.drop 1
    let r3 := r2.drop 1
    let r4 := r3.drop 1
    let r5 := r4.drop 4
    let r6 := r5.drop 2
    let r7 := r6.drop 2
    let r8 := r7.drop 4
    let r9 := r8.drop 4
    let r10 := r9.drop 4
    let r11 := r10.drop 4
    let r12 := r11.drop 16
    let r13 := r12.drop 64
    some (mkPacket randXid
      (beVal (data.take 1)) (beVal (r1.take 1)) (beVal (r2.take 1))
      (beVal (r3.take 1)) (beVal (r4.take 4)) (beVal (r5.take 2))
      (beVal (r6.take 2)) (beVal (r7.take 4)) (beVal (r8.take 4))
      (beVal (r9.take 4)) (beVal (r10.take 4))
      (r11.take 16) (rstrip0 (r12.take 64)) (rstrip0 (r13.take 128))
      (parseOptions (data.drop 240)))

/-- The frame-demultiplexing part of one iteration of
`DHCPListener.receive` (`testDHCP.py:209-240`), up to and including
`DHCPPacket.unpack` but before the XID filter.  `none` covers every way
the iteration fails to produce a packet: the explicit `continue` branches
(frame shorter than 14 bytes, IP protocol byte not 17, UDP ports not
(67, 68), extracted DHCP payload shorter than 240 bytes) and the
exceptions a too-short frame raises inside the `try` block (`IndexError`
on `ip_header[9]`, `struct.error` on a short UDP header), which the
handler at `testDHCP.py:250-252` turns into `continue` as well. -/
def demuxDecode (randXid : Nat) (packet : List Nat) : Option DHCPPacket :=
  if packet.length < 14 then none
  else
    let ipHeader := packet.drop 14
    match ipHeader.get? 9 with
    | none => none
    | some proto =>
      if proto ≠ 17 then none
      else
        let ipHlen := (ipHeader.headD 0 % 16) * 4
        let udpHeader := ipHeader.drop ipHlen
        if udpHeader.length < 2 then none
        else if udpHeader.length < 4 then none
        else
          let srcPort := beVal (udpHeader.take 2)
          let dstPort := beVal ((udpHeader.drop 2).take 2)
          if srcPort ≠ 67 ∨ dstPort ≠ 68 then none
          else if udpHeader.length < 6 then none
          else
            let udpLength := beVal ((udpHeader.drop 4).take 2)
            let dhcpData := (udpHeader.drop 8).take (udpLength - 8)
            if dhcpData.length < 240 then none
            else unpack randXid dhcpData

/-- The XID filter of `DHCPListener.receive` (`testDHCP.py:242-246`): when
a filter is set and the decoded packet's `xid` differs, the packet is
discarded (`continue`); otherwise it is returned. -/
def xidAccept (xidFilter : Option Nat) (p : DHCPPacket) :
    Option DHCPPacket :=
  match xidFilter with
  | some x => if p.xid ≠ x then none else some p
  | none => some p

/-- One full iteration of the `DHCPListener.receive` loop on a captured
frame: demultiplex, decode, filter by XID. -/
def processFrame (xidFilter : Option Nat) (randXid : Nat)
    (packet : List Nat) : Option DHCPPacket :=
  (demuxDecode randXid packet).bind (xidAccept xidFilter)

/-- Model of `DHCPListener.receive` (`testDHCP.py:191-254`) over the sequence of
frames captured before the timeout: each frame is processed in arrival
order, the first one yielding a packet is returned and no later frame is
consulted; an exhausted stream models the deadline expiring with `return
None`. -/
def receive (xidFilter : Option Nat) (randXid : Nat) :
    List (List Nat) → Option DHCPPacket
  | [] => none
  | f :: rest =>
    match processFrame xidFilter randXid f with
    | some p => some p
    | none => receive xidFilter randXid rest

/-- The `receive` loop restricted to the stream of successfully decoded
DHCP messages it sees during `Listening`: only the XID filter of
`testDHCP.py:242-246` decides acceptance. -/
def listenLoop (xidFilter : Option Nat) :
    List DHCPPacket → Option DHCPPacket
  | [] => none
  | m :: rest =>
    match xidAccept xidFilter m with
    | some p => some p
    | none => listenLoop xidFilter rest

/-! ## Option interpretation (`scan_dhcp_options`, `testDHCP.py:392-421`) -/

/-- One lowercase hexadecimal digit. -/
def hexDigit (n : Nat) : Char :=
  if n < 10 then Char.ofNat (48 + n) else Char.ofNat (87 + n)

/-- Python `bytes.hex()`: two lowercase hexadecimal digits per byte. -/
def bytesHex (l : List Nat) : String :=
  String.join (l.map (fun b => String.mk [hexDigit (b / 16 % 16), hexDigit (b % 16)]))

/-- The `msg_types` lookup for option 53 (`testDHCP.py:395-397`): the
dictionary is keyed by the whole data byte string, with an
`Unknown (<hex>)` default. -/
def msgTypeStr (d : List Nat) : String :=
  if d = [1] then "DISCOVER"
  else if d = [2] then "OFFER"
  else if d = [3] then "REQUEST"
  else if d = [5] then "ACK"
  else if d = [6] then "NAK"
  else "Unknown (" ++ bytesHex d ++ ")"

/-- Model of `struct.unpack` with format `!l`: signed big-endian 32-bit value of the
first four bytes. -/
def sbe32 (l : List Nat) : Int :=
  let u := beVal (l.take 4)
  if u < 2 ^ 31 then (u : Int) else (u : Int) - 2 ^ 32

/-- Python `f"{i:+d}"`: decimal with an explicit sign. -/
def plusFmt (i : Int) : String :=
  if 0 ≤ i then "+" ++ toString i else toString i

/-- The option-2 branch (`testDHCP.py:398-405`): with at least four data
bytes, the signed offset in seconds with floor-divided hour/minute
components (Python `//` and `%`, i.e. `Int.ediv`/`Int.emod` for the
positive divisors 3600 and 60); otherwise the raw-hex fallback. -/
def timeOffsetStr (d : List Nat) : String :=
  if 4 ≤ d.length then
    let off := sbe32 d
    toString off ++ " сек (" ++ plusFmt (Int.ediv off 3600) ++ "ч " ++
      toString (Int.ediv (Int.emod off 3600) 60) ++ "м)"
  else "0x" ++ bytesHex d

/-- Python `bytes.decode('ascii', errors='ignore')`: bytes below 128
become the corresponding character, others are dropped; never raises. -/
def asciiIgnore (d : List Nat) : String :=
  String.mk ((d.filter (fun b => b < 128)).map Char.ofNat)

/-- The per-option interpretation of the `scan_dhcp_options` loop
(`testDHCP.py:393-421`), branch for branch.  `none` models an exception
escaping the loop body into the handler at `testDHCP.py:433-435`: in the
branch for codes 1, 3, 6, 28, 42 and 54 with a non-empty data length that
is a multiple of four, the loop body calls `socket.inet_aton` on a
`bytes` slice (`testDHCP.py:409`), and `inet_aton` requires a `str`, so
the first iteration raises `TypeError: inet_aton() argument 1 must be
str, not bytes`; with empty data that branch's `for` loop never runs and
`', '.join([])` yields the empty string. -/
def interpretOption (code : Nat) (d : List Nat) : Option String :=
  if code = 53 ∧ d ≠ [] then some (msgTypeStr d)
  else if code = 2 then some (timeOffsetStr d)
  else if (code = 1 ∨ code = 3 ∨ code = 6 ∨ code = 28 ∨ code = 42 ∨
      code = 54) ∧ d.length % 4 = 0 then
    if d = [] then some "" else none
  else if (code = 51 ∨ code = 58 ∨ code = 59) ∧ d.length = 4 then
    some (toString (beVal d) ++ " сек")
  else if d ≠ [] then some (asciiIgnore d)
  else some "Present"

/-- The whole `for opt_code, opt_data in response.options` loop: the
interpreted `(code, value)` pairs in order, or `none` when any iteration
raises (the exception aborts the loop and `scan_dhcp_options` returns
`None`). -/
def interpretAll : List (Nat × List Nat) → Option (List (Nat × String))
  | [] => some []
  | (c, d) :: rest =>
    match interpretOption c d with
    | none => none
    | some v => (interpretAll rest).map (fun vs => (c, v) :: vs)

/-! ## Terminal outcomes of one scan (`scan_dhcp_options`,
`testDHCP.py:342-437`) -/

/-- The terminal state of one discover/offer exchange: an offer matched
the XID filter, the 8-second listening budget expired with no match, or a
channel operation (raw-socket creation, bind, send, receive) failed at the
platform boundary. -/
inductive ExchangeOutcome where
  | matched (offer : DHCPPacket)
  | timedOut
  | channelError
  deriving Repr, DecidableEq

/-- What `scan_dhcp_options` returns to its caller in each terminal state
(`testDHCP.py:387-437`): a matched offer whose option loop completes
yields the result dictionary (modelled by the offer and its interpreted
options); a matched offer whose option loop raises falls into the
`except` handler, which prints and returns `None`; a timeout prints and
returns `None` (`testDHCP.py:429-431`); a channel error is caught by the
same `except` handler (or by `listener.start` returning `False`,
`testDHCP.py:357-359`) and also yields `None`. -/
def scanReturn (outcome : ExchangeOutcome) :
    Option (DHCPPacket × List (Nat × String)) :=
  match outcome with
  | .matched p =>
    match interpretAll p.options with
    | some vs => some (p, vs)
    | none => none
  | .timedOut => none
  | .channelError => none

/-! ## Well-formedness and codec lemmas -/

/-- The option list is free of code-0/255 anomalies and of entries the
encoder cannot emit: every code is in 1..254 and every data string fits
in the one length byte. -/
def OptsWF (opts : List (Nat × List Nat)) : Prop :=
  ∀ o ∈ opts, 0 < o.1 ∧ o.1 < 255 ∧ o.2.length ≤ 255

instance (opts : List (Nat × List Nat)) : Decidable (OptsWF opts) := by
  unfold OptsWF
  infer_instance

/-- A well-formed `DHCPPacket` object: header fields in the ranges
`struct.pack` accepts (`xid` is any 32-bit value), address values
denoting dotted quads, the padded byte-string lengths `__init__`
establishes, and an option list free of code-0/255 anomalies. -/
def WellFormed (p : DHCPPacket) : Prop :=
  headerOk p ∧ p.chaddr.length = 16 ∧ p.sname.length = 64 ∧
  p.file.length = 128 ∧ OptsWF p.options

instance (p : DHCPPacket) : Decidable (WellFormed p) := by
  unfold WellFormed
  infer_instance

theorem drop_append_len_add {α : Type} (l₁ l₂ : List α) (n m : Nat)
    (h : l₁.length = n) : (l₁ ++ l₂).drop (n + m) = l₂.drop m := by
  subst h
  induction l₁ with
  | nil => simp
  | cons a t ih =>
    show ((a :: t) ++ l₂).drop (t.length + 1 + m) = l₂.drop m
    have harith : t.length + 1 + m = (t.length + m) + 1 := by omega
    rw [harith]
    exact ih

theorem parseOptions_end (tail : List Nat) :
    parseOptions (255 :: tail) = [] := by
  rw [parseOptions_cons]
  simp

/-- The encoding loop succeeds on an anomaly-free option list and its
output, followed by any tail, parses back to that list followed by the
parse of the tail. -/
theorem packOptionsLoop_roundtrip (opts : List (Nat × List Nat))
    (h : OptsWF opts) :
    ∃ lb, packOptionsLoop opts = some lb ∧
      ∀ tail, parseOptions (lb ++ tail) = opts ++ parseOptions tail := by
  induction opts with
  | nil => exact ⟨[], rfl, fun tail => rfl⟩
  | cons o rest ih =>
    obtain ⟨c, d⟩ := o
    obtain ⟨hc0, hc255, hd⟩ := h (c, d) (List.mem_cons_self _ _)
    have hc0' : 0 < c := hc0
    have hc255' : c < 255 := hc255
    have hd' : d.length ≤ 255 := hd
    obtain ⟨lb, hlb, hparse⟩ := ih (fun o ho => h o (List.mem_cons_of_mem _ ho))
    refine ⟨c :: d.length :: (d ++ lb), ?_, ?_⟩
    · simp only [packOptionsLoop, hlb]
      rw [if_neg (by omega), if_neg (by omega), if_pos ⟨by omega, by omega⟩]
      rfl
    · intro tail
      have hstep : parseOptions ((c :: d.length :: (d ++ lb)) ++ tail) =
          (c, d) :: parseOptions (lb ++ tail) := by
        show parseOptions (c :: d.length :: (d ++ lb ++ tail)) = _
        rw [parseOptions_cons]
        simp only
        rw [if_neg (by omega), if_neg (by omega)]
        rw [List.append_assoc]
        rw [take_append_len d (lb ++ tail) d.length rfl,
          drop_append_len d (lb ++ tail) d.length rfl]
      rw [hstep, hparse tail]
      rfl

theorem packOptions_no_end (opts : List (Nat × List Nat))
    (h : OptsWF opts) :
    ∃ lb, packOptions opts = some (lb ++ [255]) ∧
      parseOptions (lb ++ [255]) = opts := by
  obtain ⟨lb, hlb, hparse⟩ := packOptionsLoop_roundtrip opts h
  have hno : opts.any (fun o => o.1 = 255) = false := by
    rw [List.any_eq_false]
    intro o ho
    have := (h o ho).2.1
    simp
    omega
  refine ⟨lb, ?_, ?_⟩
  · simp [packOptions, hlb, hno]
  · rw [hparse [255], parseOptions_end]
    simp

/-- Running `unpack` on a buffer laid out as the fourteen fixed fields, a 4-byte
cookie and an option tail extracts exactly those fields (the cookie bytes
are never read). -/
theorem unpack_fields (r op htype hlen hops xid secs flags ci yi si gi : Nat)
    (chaddr sname file cookie tailopts : List Nat)
    (hop : op < 256 ^ 1) (hht : htype < 256 ^ 1) (hhl : hlen < 256 ^ 1)
    (hho : hops < 256 ^ 1) (hx : xid < 256 ^ 4) (hs : secs < 256 ^ 2)
    (hf : flags < 256 ^ 2) (hci : ci < 256 ^ 4) (hyi : yi < 256 ^ 4)
    (hsi : si < 256 ^ 4) (hgi : gi < 256 ^ 4)
    (hch : chaddr.length = 16) (hsn : sname.length = 64)
    (hfi : file.length = 128) (hck : cookie.length = 4) :
    unpack r (beBytes 1 op ++ (beBytes 1 htype ++ (beBytes 1 hlen ++
      (beBytes 1 hops ++ (beBytes 4 xid ++ (beBytes 2 secs ++
      (beBytes 2 flags ++ (beBytes 4 ci ++ (beBytes 4 yi ++
      (beBytes 4 si ++ (beBytes 4 gi ++ (chaddr ++ (sname ++
      (file ++ (cookie ++ tailopts))))))))))))))) =
    some (mkPacket r op htype hlen hops xid secs flags ci yi si gi
      chaddr (rstrip0 sname) (rstrip0 file) (parseOptions tailopts)) := by
  have hlenall : (beBytes 1 op ++ (beBytes 1 htype ++ (beBytes 1 hlen ++
      (beBytes 1 hops ++ (beBytes 4 xid ++ (beBytes 2 secs ++
      (beBytes 2 flags ++ (beBytes 4 ci ++ (beBytes 4 yi ++
      (beBytes 4 si ++ (beBytes 4 gi ++ (chaddr ++ (sname ++
      (file ++ (cookie ++ tailopts))))))))))))))).length =
      240 + tailopts.length := by
    simp [hch, hsn, hfi, hck]
    omega
  have h240 : (beBytes 1 op ++ (beBytes 1 htype ++ (beBytes 1 hlen ++
      (beBytes 1 hops ++ (beBytes 4 xid ++ (beBytes 2 secs ++
      (beBytes 2 flags ++ (beBytes 4 ci ++ (beBytes 4 yi ++
      (beBytes 4 si ++ (beBytes 4 gi ++ (chaddr ++ (sname ++
      (file ++ (cookie ++ tailopts))))))))))))))).drop 240 = tailopts := by
    have hass : beBytes 1 op ++ (beBytes 1 htype ++ (beBytes 1 hlen ++
        (beBytes 1 hops ++ (beBytes 4 xid ++ (beBytes 2 secs ++
        (beBytes 2 flags ++ (beBytes 4 ci ++ (beBytes 4 yi ++
        (beBytes 4 si ++ (beBytes 4 gi ++ (chaddr ++ (sname ++
        (file ++ (cookie ++ tailopts)))))))))))))) =
        (beBytes 1 op ++ beBytes 1 htype ++ beBytes 1 hlen ++
        beBytes 1 hops ++ beBytes 4 xid ++ beBytes 2 secs ++
        beBytes 2 flags ++ beBytes 4 ci ++ beBytes 4 yi ++ beBytes 4 si ++
        beBytes 4 gi ++ chaddr ++ sname ++ file ++ cookie) ++ tailopts := by
      simp [List.append_assoc]
    rw [hass]
    exact drop_append_len _ _ _ (by simp [hch, hsn, hfi, hck])
  unfold unpack
  rw [if_neg (by omega)]
  simp only [h240, take_append_len, drop_append_len, beBytes_length,
    take_append_len _ _ _ hch, drop_append_len _ _ _ hch,
    take_append_len _ _ _ hsn, drop_append_len _ _ _ hsn,
    take_append_len _ _ _ hfi,
    beVal_beBytes _ _ hop, beVal_beBytes _ _ hht, beVal_beBytes _ _ hhl,
    beVal_beBytes _ _ hho, beVal_beBytes _ _ hx, beVal_beBytes _ _ hs,
    beVal_beBytes _ _ hf, beVal_beBytes _ _ hci, beVal_beBytes _ _ hyi,
    beVal_beBytes _ _ hsi, beVal_beBytes _ _ hgi]

/-- Applying `mkPacket` to the fields `unpack` extracts from a
well-formed packet's encoding rebuilds that packet, except that a zero
`xid` field is replaced by the fresh random draw (`xid or
random.randint(0, 0xFFFFFFFF)` in `__init__`). -/
theorem mkPacket_self (r : Nat) (p : DHCPPacket)
    (hch : p.chaddr ≠ []) (hsn : p.sname.length = 64)
    (hfi : p.file.length = 128) :
    mkPacket r p.op p.htype p.hlen p.hops p.xid p.secs p.flags
      p.ciaddr p.yiaddr p.siaddr p.giaddr p.chaddr (rstrip0 p.sname)
      (rstrip0 p.file) p.options =
      { p with xid := if p.xid = 0 then r else p.xid } := by
  unfold mkPacket
  rw [if_neg hch, rstrip0_ljust 64 p.sname hsn,
    rstrip0_ljust 128 p.file hfi]

/-! ## Claim C1 -/

/-- Decoding the encoding of any well-formed packet rebuilds the packet
field for field, except that a zero `xid` field comes back as the fresh
random draw `r` taken by `__init__` during reconstruction. -/
theorem pack_unpack_eval (r : Nat) (p : DHCPPacket)
    (h : WellFormed p) :
    ∃ bs, p.pack = some bs ∧
      unpack r bs = some { p with xid := if p.xid = 0 then r else p.xid } := by
  obtain ⟨hhdr, hch, hsn, hfi, hopts⟩ := h
  obtain ⟨hop, hht, hhl, hho, hx, hs, hf, hci, hyi, hsi, hgi⟩ := hhdr
  obtain ⟨lb, hpack, hparse⟩ := packOptions_no_end p.options hopts
  refine ⟨fixedBytes p ++ magicCookie ++ (lb ++ [255]), ?_, ?_⟩
  · unfold DHCPPacket.pack
    rw [if_pos ⟨hop, hht, hhl, hho, hx, hs, hf, hci, hyi, hsi, hgi⟩, hpack]
    rfl
  · have hassoc : fixedBytes p ++ magicCookie ++ (lb ++ [255]) =
        beBytes 1 p.op ++ (beBytes 1 p.htype ++ (beBytes 1 p.hlen ++
        (beBytes 1 p.hops ++ (beBytes 4 p.xid ++ (beBytes 2 p.secs ++
        (beBytes 2 p.flags ++ (beBytes 4 p.ciaddr ++ (beBytes 4 p.yiaddr ++
        (beBytes 4 p.siaddr ++ (beBytes 4 p.giaddr ++
        (fixstr 16 p.chaddr ++ (fixstr 64 p.sname ++ (fixstr 128 p.file ++
        (magicCookie ++ (lb ++ [255]))))))))))))))) := by
      simp [fixedBytes, List.append_assoc]
    rw [hassoc]
    rw [unpack_fields r p.op p.htype p.hlen p.hops p.xid p.secs p.flags
      p.ciaddr p.yiaddr p.siaddr p.giaddr (fixstr 16 p.chaddr)
      (fixstr 64 p.sname) (fixstr 128 p.file) magicCookie (lb ++ [255])
      (by norm_num at hop ⊢; omega) (by norm_num at hht ⊢; omega)
      (by norm_num at hhl ⊢; omega) (by norm_num at hho ⊢; omega)
      (by norm_num at hx ⊢; omega) (by norm_num at hs ⊢; omega)
      (by norm_num at hf ⊢; omega) (by norm_num at hci ⊢; omega)
      (by norm_num at hyi ⊢; omega) (by norm_num at hsi ⊢; omega)
      (by norm_num at hgi ⊢; omega)
      (fixstr_length 16 p.chaddr) (fixstr_length 64 p.sname)
      (fixstr_length 128 p.file) rfl]
    rw [fixstr_eq 16 p.chaddr hch, fixstr_eq 64 p.sname hsn,
      fixstr_eq 128 p.file hfi, hparse]
    rw [mkPacket_self r p
      (by intro he; rw [he] at hch; simp at hch) hsn hfi]

/-- A concrete, fully in-range packet whose `xid` is 0.  Every header
field satisfies the ranges `struct.pack` accepts, so it is well-formed
per the spec's data model ("xid: 32-bit transaction id"). -/
def zeroXidPacket : DHCPPacket :=
  { op := 1, htype := 1, hlen := 6, hops := 0, xid := 0, secs := 0,
    flags := 0, ciaddr := 0, yiaddr := 0, siaddr := 0, giaddr := 0,
    chaddr := List.replicate 16 0, sname := List.replicate 64 0,
    file := List.replicate 128 0, options := [(53, [1])] }

/-- C1, counterexample. The claim asserts the round trip reproduces
every fixed field, `xid` included, for *every* well-formed packet.  It
fails at `zeroXidPacket` (all fields in range, options anomaly-free,
`xid = 0`): `__init__` evaluates `xid or random.randint(0, 0xFFFFFFFF)`,
so decoding the encoding rebuilds the packet with the fresh random draw
(here 1) in place of the zero `xid`, and the decoded packet differs from
the original. -/
theorem pack_unpack_xid0_counterexample :
    zeroXidPacket.pack.bind (unpack 1) =
      some { zeroXidPacket with xid := 1 } ∧
    zeroXidPacket.xid = 0 ∧
    ({ zeroXidPacket with xid := 1 } : DHCPPacket) ≠ zeroXidPacket := by
  refine ⟨?_, ?_, ?_⟩ <;> decide

/-- C1, amended. Round-trip: for every well-formed `DHCPPacket` `p`
whose option list contains no code-0 or code-255 anomalies *and whose
`xid` is nonzero*, `DHCPPacket.unpack` applied to the output of
`DHCPPacket.pack` reproduces every fixed field (`op`, `htype`, `hlen`,
`hops`, `xid`, `secs`, `flags`, `ciaddr`, `yiaddr`, `siaddr`, `giaddr`,
`chaddr`, `sname`, `file`) and the option list exactly, in order — the
decoded packet equals `p` — even though the encoder appended the trailing
End (255) option absent from `p`'s list.  When `xid = 0`, all fields
round-trip except `xid`, which comes back as the fresh random draw taken
while rebuilding the packet (`xid or random.randint` in `__init__`). -/
theorem pack_unpack_roundtrip (r : Nat) (p : DHCPPacket)
    (h : WellFormed p) :
    (p.xid ≠ 0 → ∃ bs, p.pack = some bs ∧ unpack r bs = some p) ∧
    (p.xid = 0 → ∃ bs, p.pack = some bs ∧
      unpack r bs = some { p with xid := r }) := by
  obtain ⟨bs, hbs, hun⟩ := pack_unpack_eval r p h
  constructor
  · intro hx0
    refine ⟨bs, hbs, ?_⟩
    rw [hun, if_neg hx0]
  · intro hx0
    refine ⟨bs, hbs, ?_⟩
    rw [hun, if_pos hx0]

/-- A concrete well-formed DISCOVER-like packet with nonzero `xid`, used
as the round-trip witness input. -/
def witPacket : DHCPPacket :=
  { op := 1, htype := 1, hlen := 6, hops := 0, xid := 5, secs := 0,
    flags := 0, ciaddr := 0, yiaddr := 0, siaddr := 0, giaddr := 0,
    chaddr := List.replicate 16 0, sname := List.replicate 64 0,
    file := List.replicate 128 0, options := [(53, [1])] }

/-- Witness for the amended C1: exact reproduction at the nonzero-xid
packet `witPacket`, and the xid-redraw behavior at `zeroXidPacket`. -/
theorem pack_unpack_roundtrip_witness :
    (∃ bs, witPacket.pack = some bs ∧ unpack 7 bs = some witPacket) ∧
    (∃ bs, zeroXidPacket.pack = some bs ∧
      unpack 7 bs = some { zeroXidPacket with xid := 7 }) :=
  ⟨(pack_unpack_roundtrip 7 witPacket (by decide)).1 (by decide),
    (pack_unpack_roundtrip 7 zeroXidPacket (by decide)).2 (by decide)⟩

/-! ## Claim C4 -/

/-- C4, counterexample. On the option stream `[1, 4, 9, 9]` — code 1,
declared length 4, but only two data bytes remaining — the claim predicts
that the truncated tail is dropped, giving back only the prior complete
options, here `[]`.  `DHCPPacket._parse_options` instead appends the
truncated entry `(1, [9, 9])`, because the Python slice
`data[i:i+opt_len]` clips to the bytes available. -/
theorem parse_truncated_counterexample :
    parseOptions [1, 4, 9, 9] = [(1, [9, 9])] ∧
    parseOptions [1, 4, 9, 9] ≠ [] := by
  constructor <;> decide

/-- C4, amended. On a stream truncated mid-option, the decoder
returns the prior complete options followed by one *truncated* entry
holding the bytes that remain after the length byte (fewer than the
declared length `L`); only when the code byte is the last byte of the
stream (no length byte follows) is the partial tail dropped silently.  It
never errors in either case. -/
theorem parse_truncated_amended :
    (∀ (prior : List (Nat × List Nat)) (lb : List Nat) (c L : Nat)
      (d : List Nat), OptsWF prior → packOptionsLoop prior = some lb →
      0 < c → c < 255 → d.length < L →
      parseOptions (lb ++ (c :: L :: d)) = prior ++ [(c, d)]) ∧
    (∀ (prior : List (Nat × List Nat)) (lb : List Nat) (c : Nat),
      OptsWF prior → packOptionsLoop prior = some lb →
      0 < c → c < 255 →
      parseOptions (lb ++ [c]) = prior) := by
  constructor
  · intro prior lb c L d hwf hlb hc0 hc255 hlen
    obtain ⟨lb2, hlb2, hparse⟩ := packOptionsLoop_roundtrip prior hwf
    rw [hlb2] at hlb
    injection hlb with hlb
    subst hlb
    rw [hparse (c :: L :: d)]
    congr 1
    rw [parseOptions_cons]
    simp only
    rw [if_neg (by omega), if_neg (by omega)]
    rw [List.take_of_length_le (by omega), List.drop_eq_nil_of_le (by omega)]
    rw [parseOptions_nil]
  · intro prior lb c hwf hlb hc0 hc255
    obtain ⟨lb2, hlb2, hparse⟩ := packOptionsLoop_roundtrip prior hwf
    rw [hlb2] at hlb
    injection hlb with hlb
    subst hlb
    rw [hparse [c]]
    rw [parseOptions_cons]
    simp only
    rw [if_neg (by omega), if_neg (by omega)]
    simp

/-- Witness for the amended C4: prior complete option `(53, [1])`
(encoded `[53, 1, 1]`), then a truncated option `1` with declared length
4 and two data bytes, and separately a trailing code byte with no length
byte. -/
theorem parse_truncated_amended_witness :
    parseOptions [53, 1, 1, 1, 4, 9, 9] = [(53, [1]), (1, [9, 9])] ∧
    parseOptions [53, 1, 1, 2] = [(53, [1])] :=
  ⟨parse_truncated_amended.1 [(53, [1])] [53, 1, 1] 1 4 [9, 9]
      (by decide) rfl (by decide) (by decide) (by decide),
    parse_truncated_amended.2 [(53, [1])] [53, 1, 1] 2
      (by decide) rfl (by decide) (by decide)⟩

/-! ## Claim C5 -/

/-- C5, counterexample. The claim predicts that an entry with code 0
(or 255) and non-empty data makes the encoder fail with `InvalidOption`.
The loop at `testDHCP.py:94-97` instead emits the single code byte and
silently discards the data: `packOptions [(0, [7])]` succeeds (emitting
the pad byte plus the appended End terminator), and `packOptions
[(255, [7])]` succeeds as well. -/
theorem pack_options_counterexample :
    packOptions [(0, [7])] = some [0, 255] ∧
    packOptions [(255, [7])] = some [255] := by
  constructor <;> rfl

/-- C5, amended. The encoder emits a single code byte for codes 0 and
255 *discarding any data silently* (no failure, no `InvalidOption` — the
source defines no such error); for any other code below 256 with data of
at most 255 bytes it emits `[code][len(data)][data...]`; for any other
code with data longer than 255 bytes it fails (an uncaught Python
`ValueError` from `bytes([opt_code, opt_len])`, not a dedicated
`InvalidOption` error); and a terminating End (255) byte is appended
exactly when no code-255 entry is present in the input list. -/
theorem pack_options_amended :
    (∀ (d : List Nat) (rest : List (Nat × List Nat)),
      packOptionsLoop ((0, d) :: rest) =
        (packOptionsLoop rest).map (fun bs => 0 :: bs)) ∧
    (∀ (d : List Nat) (rest : List (Nat × List Nat)),
      packOptionsLoop ((255, d) :: rest) =
        (packOptionsLoop rest).map (fun bs => 255 :: bs)) ∧
    (∀ (c : Nat) (d : List Nat) (rest : List (Nat × List Nat)),
      0 < c → c < 255 → d.length ≤ 255 →
      packOptionsLoop ((c, d) :: rest) =
        (packOptionsLoop rest).map (fun bs => c :: d.length :: (d ++ bs))) ∧
    (∀ (c : Nat) (d : List Nat) (rest : List (Nat × List Nat)),
      0 < c → c < 255 → 255 < d.length →
      packOptionsLoop ((c, d) :: rest) = none) ∧
    (∀ (opts : List (Nat × List Nat)) (bs : List Nat),
      packOptionsLoop opts = some bs →
      opts.any (fun o => o.1 = 255) = false →
      packOptions opts = some (bs ++ [255])) ∧
    (∀ (opts : List (Nat × List Nat)) (bs : List Nat),
      packOptionsLoop opts = some bs →
      opts.any (fun o => o.1 = 255) = true →
      packOptions opts = some bs) := by
  refine ⟨fun d rest => rfl, fun d rest => rfl, ?_, ?_, ?_, ?_⟩
  · intro c d rest hc0 hc255 hd
    show packOptionsLoop ((c, d) :: rest) = _
    rw [packOptionsLoop.eq_def]
    simp only
    rw [if_neg (by omega), if_neg (by omega),
      if_pos ⟨by omega, by omega⟩]
  · intro c d rest hc0 hc255 hd
    rw [packOptionsLoop.eq_def]
    simp only
    rw [if_neg (by omega), if_neg (by omega), if_neg (by omega)]
  · intro opts bs hbs hno
    simp [packOptions, hbs, hno]
  · intro opts bs hbs hyes
    simp [packOptions, hbs, hyes]

/-- Witness for the amended C5 at concrete inputs: a pad entry with data,
an End entry with data, a normal entry, an oversized entry, and the two
End-termination behaviors. -/
theorem pack_options_amended_witness :
    packOptionsLoop [(0, [7])] = some [0] ∧
    packOptionsLoop [(255, [7])] = some [255] ∧
    packOptionsLoop [(12, [1, 2])] = some [12, 2, 1, 2] ∧
    packOptionsLoop [(200, List.replicate 256 0)] = none ∧
    packOptions [(12, [1, 2])] = some [12, 2, 1, 2, 255] ∧
    packOptions [(12, [1, 2]), (255, [])] = some [12, 2, 1, 2, 255] := by
  refine ⟨?_, ?_, ?_, ?_, ?_, ?_⟩
  · rw [pack_options_amended.1 [7] []]
    rfl
  · rw [pack_options_amended.2.1 [7] []]
    rfl
  · rw [pack_options_amended.2.2.1 12 [1, 2] [] (by decide) (by decide)
      (by decide)]
    rfl
  · rw [pack_options_amended.2.2.2.1 200 (List.replicate 256 0) []
      (by decide) (by decide) (by rw [List.length_replicate]; omega)]
  · exact pack_options_amended.2.2.2.2.1 [(12, [1, 2])] [12, 2, 1, 2]
      rfl (by decide)
  · exact pack_options_amended.2.2.2.2.2 [(12, [1, 2]), (255, [])]
      [12, 2, 1, 2, 255] rfl (by decide)

/-! ## Claim C6 -/

/-- C6, counterexample. The claim predicts that every input shorter
than 240 bytes fails to decode.  On a 236-byte input `DHCPPacket.unpack`
succeeds: `struct.unpack` gets its full 236-byte fixed section, and the
option slice `data[240:]` is simply empty — no error is raised. -/
theorem unpack_236_counterexample :
    (unpack 99 (List.replicate 236 0)).isSome = true ∧
    (List.replicate 236 (0 : Nat)).length < 240 := by
  constructor
  · rw [unpack]
    rw [if_neg (by rw [List.length_replicate]; omega)]
    rfl
  · rw [List.length_replicate]
    omega

/-- C6, amended. Decode fails (with `struct.error`, the only
truncation failure the code produces) exactly when fewer than 236 bytes
are available for the fixed section; an input of 236 to 239 bytes — fixed
section present but magic cookie incomplete — decodes successfully with
an empty option list rather than failing. -/
theorem unpack_truncation_amended :
    (∀ (r : Nat) (data : List Nat), data.length < 236 →
      unpack r data = none) ∧
    (∀ (r : Nat) (data : List Nat), 236 ≤ data.length →
      data.length < 240 →
      ∃ p, unpack r data = some p ∧ p.options = []) := by
  constructor
  · intro r data h
    rw [unpack, if_pos h]
  · intro r data h1 h2
    rw [unpack, if_neg (by omega)]
    refine ⟨_, rfl, ?_⟩
    show parseOptions (data.drop 240) = []
    rw [List.drop_eq_nil_of_le (by omega)]
    rw [parseOptions_nil]

/-- Witness for the amended C6: the empty input fails; a 237-byte input
decodes with no options. -/
theorem unpack_truncation_amended_witness :
    unpack 3 [] = none ∧
    ∃ p, unpack 3 (List.replicate 237 0) = some p ∧ p.options = [] :=
  ⟨unpack_truncation_amended.1 3 [] (by decide),
    unpack_truncation_amended.2 3 (List.replicate 237 0)
      (by rw [List.length_replicate]; omega)
      (by rw [List.length_replicate]; omega)⟩

/-! ## Claim C2 -/

/-- C2. For the address-list option codes with a data length that is a
nonzero multiple of four, interpretation never produces a dotted quad: the
loop body applies `socket.inet_aton` to a `bytes` slice
(`testDHCP.py:409`), which raises `TypeError` unconditionally
(`inet_aton` accepts only `str`), so the claimed decoding — code 1 with
data `FF FF FF 00` yielding `"255.255.255.0"` — never happens; the
exception aborts `scan_dhcp_options` instead. -/
theorem interpret_ip_option_raises :
    interpretOption 1 [255, 255, 255, 0] = none ∧
    interpretOption 1 [255, 255, 255, 0] ≠ some "255.255.255.0" := by
  constructor <;> decide

/-! ## Claim C3 -/

/-- C3. The option-interpretation step is not total: on the ordinary
DNS-server entry `(6, [8, 8, 8, 8])` — and any address-list code with a
non-empty multiple-of-four payload — the loop body raises `TypeError`
(`socket.inet_aton` applied to `bytes`, `testDHCP.py:409`), aborting the
whole interpretation loop, contradicting the claim that every
`(code, data)` pair yields a value or a raw fallback without failing. -/
theorem interpret_not_total :
    interpretOption 6 [8, 8, 8, 8] = none ∧
    interpretAll [(6, [8, 8, 8, 8])] = none := by
  constructor <;> decide

/-! ## Claim C8 -/

/-- C8. XID filter: over any stream of successfully decoded DHCP
messages seen during `Listening`, the receive loop with filter `x`
returns exactly the first message whose `xid` equals `x` — every message
with a different `xid` is discarded regardless of arrival order, and
nothing after the first match is consulted (`List.find?` semantics). -/
theorem listen_xid_filter (x : Nat) (msgs : List DHCPPacket) :
    listenLoop (some x) msgs = msgs.find? (fun m => m.xid == x) := by
  induction msgs with
  | nil => rfl
  | cons m rest ih =>
    by_cases hm : m.xid = x
    · have hb : (m.xid == x) = true := by simp [hm]
      simp [listenLoop, xidAccept, hm, List.find?, hb]
    · have hb : (m.xid == x) = false := by simp [hm]
      simp [listenLoop, xidAccept, hm, List.find?, hb, ih]

/-! ## Claim C10 -/

/-- C10 (implicit). A captured frame that passes the demultiplexing
checks and decodes to a message with the request's `xid` is returned as
the offer with no hypothesis whatsoever on its `op` field or its
message-type option (code 53): the receive loop at `testDHCP.py:242-246`
inspects only `xid`, so a matching-xid message of any DHCP type (an ACK,
a NAK, even one with `op = 1`) is accepted. -/
theorem receive_ignores_op_and_type (x r : Nat) (frame : List Nat)
    (rest : List (List Nat)) (p : DHCPPacket)
    (hdec : demuxDecode r frame = some p) (hx : p.xid = x) :
    receive (some x) r (frame :: rest) = some p := by
  rw [receive]
  simp [processFrame, hdec, xidAccept, hx]

/-- A complete captured frame for the C10 witness: Ethernet header (14
bytes, contents irrelevant), minimal IPv4 header with protocol 17, UDP
header with ports 67→68 and length 252, and a 244-byte DHCP payload whose
message has `op = 1` (a *request*, not a reply) and message-type option
53 = 6 (NAK) with `xid = 5`. -/
def witFrame : List Nat :=
  List.replicate 14 0 ++
  ([0x45] ++ List.replicate 8 0 ++ [17] ++ List.replicate 10 0) ++
  [0, 67, 0, 68, 0, 252, 0, 0] ++
  ([1, 1, 6, 0] ++ [0, 0, 0, 5] ++ List.replicate 228 0 ++
    [0x63, 0x82, 0x53, 0x63] ++ [53, 1, 6, 255])

/-- The packet `witFrame` decodes to: a NAK-typed message with `op = 1`. -/
def witNak : DHCPPacket :=
  { op := 1, htype := 1, hlen := 6, hops := 0, xid := 5, secs := 0,
    flags := 0, ciaddr := 0, yiaddr := 0, siaddr := 0, giaddr := 0,
    chaddr := List.replicate 16 0, sname := List.replicate 64 0,
    file := List.replicate 128 0, options := [(53, [6])] }

/-- Witness for C10: the receive loop with filter `xid = 5` returns the
frame carrying an `op = 1`, type-NAK message as the accepted offer. -/
theorem receive_ignores_op_and_type_witness :
    receive (some 5) 0 [witFrame] = some witNak ∧
    witNak.op = 1 ∧ witNak.options = [(53, [6])] :=
  ⟨receive_ignores_op_and_type 5 0 witFrame [] witNak (by decide) (by decide),
    by decide, by decide⟩

/-! ## Claim C9 -/

/-- C9, counterexample. The claim requires the channel-error outcome
to be distinguishable by the caller from the normal no-answer timeout.
`scan_dhcp_options` returns `None` in both cases (`testDHCP.py:429-431`
and `433-435`; error and timeout differ only in text printed to the
console), so the two outcomes are the *same* caller-visible value. -/
theorem scan_outcome_counterexample :
    scanReturn ExchangeOutcome.timedOut =
      scanReturn ExchangeOutcome.channelError ∧
    scanReturn ExchangeOutcome.channelError = none := by
  constructor <;> rfl

/-- C9, amended. The terminal states map to caller-visible values as
follows: a matched offer whose option loop interprets without an
exception yields the populated result; timeout and channel error both
yield `None` — the error is *not* distinguishable from the timeout in the
returned value (only in console output); and a matched offer whose option
loop raises (see C2/C3) also collapses to `None`. -/
theorem scan_outcome_amended :
    (∀ (p : DHCPPacket) (vs : List (Nat × String)),
      interpretAll p.options = some vs →
      scanReturn (ExchangeOutcome.matched p) = some (p, vs)) ∧
    scanReturn ExchangeOutcome.timedOut = none ∧
    scanReturn ExchangeOutcome.channelError = none ∧
    (∀ p : DHCPPacket, interpretAll p.options = none →
      scanReturn (ExchangeOutcome.matched p) = none) := by
  refine ⟨?_, rfl, rfl, ?_⟩
  · intro p vs h
    simp [scanReturn, h]
  · intro p h
    simp [scanReturn, h]

/-- A matched offer whose options interpret successfully, for the C9
witness. -/
def scanWitOffer : DHCPPacket :=
  { op := 2, htype := 1, hlen := 6, hops := 0, xid := 9, secs := 0,
    flags := 0, ciaddr := 0, yiaddr := 0, siaddr := 0, giaddr := 0,
    chaddr := List.replicate 16 0, sname := List.replicate 64 0,
    file := List.replicate 128 0, options := [(53, [2])] }

/-- Witness for the amended C9 at concrete outcomes. -/
theorem scan_outcome_amended_witness :
    scanReturn (ExchangeOutcome.matched scanWitOffer) =
      some (scanWitOffer, [(53, "OFFER")]) ∧
    scanReturn (ExchangeOutcome.matched
      { scanWitOffer with options := [(6, [8, 8, 8, 8])] }) = none :=
  ⟨scan_outcome_amended.1 scanWitOffer [(53, "OFFER")] rfl,
    scan_outcome_amended.2.2.2 _ rfl⟩

/-! ## Claim C7 -/

/-- Where the UDP header of a captured frame starts, per the receive
loop's own arithmetic (`testDHCP.py:219-221`): past the 14-byte Ethernet
header and the IP header, whose length in 32-bit words is the low nibble
of the first IP byte. -/
def udpHeaderOf (frame : List Nat) : List Nat :=
  let ipHeader := frame.drop 14
  ipHeader.drop ((ipHeader.headD 0 % 16) * 4)

/-- The frame's UDP source and destination ports, when the header is long
enough to read them (`struct.unpack` of the first two 16-bit words). -/
def udpPorts (frame : List Nat) : Option (Nat × Nat) :=
  if (udpHeaderOf frame).length < 4 then none
  else some (beVal ((udpHeaderOf frame).take 2),
    beVal (((udpHeaderOf frame).drop 2).take 2))

/-- The frame's declared UDP payload length, `udpLength - 8`, when the
length field is readable. -/
def udpPayloadDecl (frame : List Nat) : Option Nat :=
  if (udpHeaderOf frame).length < 6 then none
  else some (beVal (((udpHeaderOf frame).drop 4).take 2) - 8)

/-- C7. Every captured frame that is shorter than 14 bytes, or whose
IP protocol byte (offset 9 of the IP header) is absent or not 17, or
whose UDP ports are absent or not (67, 68), or whose declared UDP payload
is shorter than 240 bytes, is classified not-applicable: the receive
iteration produces no payload and no packet — every such frame ends in
`continue` (directly, or through the exception handler of
`testDHCP.py:250-252` for frames too short to index) and nothing is
raised to the caller. -/
theorem demux_not_applicable (filter : Option Nat) (r : Nat)
    (frame : List Nat)
    (h : frame.length < 14 ∨ (frame.drop 14).get? 9 ≠ some 17 ∨
      udpPorts frame ≠ some (67, 68) ∨
      (∃ L, udpPayloadDecl frame = some L ∧ L < 240)) :
    demuxDecode r frame = none ∧ processFrame filter r frame = none := by
  have hd : demuxDecode r frame = none := by
    unfold demuxDecode
    dsimp only
    split
    · rfl
    next h14 =>
      split
      · rfl
      next proto hproto =>
        split
        · rfl
        next hp =>
          split
          · rfl
          next h2 =>
            split
            · rfl
            next h4 =>
              split
              · rfl
              next hports =>
                split
                · rfl
                next h6 =>
                  split
                  · rfl
                  next h240 =>
                    exfalso
                    push_neg at hp hports
                    rcases h with h | h | h | ⟨L, hL, hL240⟩
                    · exact h14 h
                    · rw [hproto, hp] at h
                      exact h rfl
                    · apply h
                      unfold udpPorts udpHeaderOf
                      dsimp only
                      rw [if_neg h4, hports.1, hports.2]
                    · unfold udpPayloadDecl udpHeaderOf at hL
                      dsimp only at hL
                      rw [if_neg h6] at hL
                      injection hL with hL
                      rw [List.length_take] at h240
                      omega
  exact ⟨hd, by rw [processFrame, hd]; rfl⟩

/-- Witness for C7: the empty frame (shorter than 14 bytes) is classified
not-applicable. -/
theorem demux_not_applicable_witness :
    demuxDecode 0 [] = none ∧ processFrame (some 5) 0 [] = none :=
  demux_not_applicable (some 5) 0 [] (Or.inl (by decide))

end DHCP
